import Mathlib

/-!
Verification of the root-cause attribution engine of the delivery_booster
repository: a shallow embedding of `src/ml/inference.py` (feature-group
resolver, SHAP aggregation, explainer fallback) and of
`src/app/report_text.py` (`_section8_critical_days_ml` and its helpers),
with theorems settling the specification claims about them.

All numerics are modelled as rationals; pandas/SHAP/sklearn calls are
modelled as explicit inputs (the data they would return), while every
algorithmic step written in the repository itself is translated directly.
-/

/-! ## Python string helpers

`strContains hay pat` is Python's `pat in hay`; `pyLower`/`pyUpper` are
`str.lower()`/`str.upper()` restricted to the ASCII and Cyrillic letters
that actually occur in the repository's feature names and labels. -/

def strContains (hay pat : String) : Bool :=
  hay.data.tails.any fun t => pat.data.isPrefixOf t

def pyLowerChar (c : Char) : Char :=
  if 65 ≤ c.toNat ∧ c.toNat ≤ 90 then Char.ofNat (c.toNat + 32)
  else if 0x410 ≤ c.toNat ∧ c.toNat ≤ 0x42F then Char.ofNat (c.toNat + 32)
  else if c.toNat = 0x401 then Char.ofNat 0x451
  else c

def pyLower (s : String) : String := String.mk (s.data.map pyLowerChar)

def pyUpperChar (c : Char) : Char :=
  if 97 ≤ c.toNat ∧ c.toNat ≤ 122 then Char.ofNat (c.toNat - 32)
  else if 0x430 ≤ c.toNat ∧ c.toNat ≤ 0x44F then Char.ofNat (c.toNat - 32)
  else if c.toNat = 0x451 then Char.ofNat 0x401
  else c

def pyUpper (s : String) : String := String.mk (s.data.map pyUpperChar)

/-! ## Feature-Group Resolver

Embedding of `_resolve_preprocessed_feature_groups` (src/ml/inference.py,
lines 79-125).  A `TransEntry` is one `(name, transformer, cols)` triple of
the fitted `ColumnTransformer`: `localNames` is the list of emitted column
names that the Python code obtains from the transformer by introspection
(`get_feature_names_out`, one-hot category expansion, or the raw column
list); `isDrop` says whether `transformer == "drop"`.  The resolver's own
loop over these triples is translated verbatim.  The groups dictionary is
an insertion-ordered association list, as a Python `dict` is. -/

structure TransEntry where
  name : String
  isDrop : Bool
  cols : List String
  localNames : List String

abbrev Groups := List (String × List Nat)

def dictAppend : Groups → String → Nat → Groups
  | [], k, v => [(k, [v])]
  | (k₀, vs) :: rest, k, v =>
    if k₀ = k then (k₀, vs ++ [v]) :: rest else (k₀, vs) :: dictAppend rest k v

def matchesOriginal (c nm : String) : Bool :=
  nm == c || (c ++ "_").data.isPrefixOf nm.data

def addColGroupsAux (c : String) : Groups → Nat → List String → Groups
  | g, _, [] => g
  | g, j, nm :: rest =>
    addColGroupsAux c (if matchesOriginal c nm then dictAppend g c j else g)
      (j + 1) rest

def addColGroups (g : Groups) (idx : Nat) (localNames : List String)
    (c : String) : Groups :=
  addColGroupsAux c g idx localNames

def addEntryGroups (g : Groups) (idx : Nat) (cols : List String)
    (localNames : List String) : Groups :=
  cols.foldl (fun g c => addColGroups g idx localNames c) g

def resolveAux : Nat → List String → Groups → List TransEntry → List String × Groups
  | _, names, g, [] => (names, g)
  | idx, names, g, e :: rest =>
    if e.name = "remainder" ∧ e.isDrop then resolveAux idx names g rest
    else
      resolveAux (idx + e.localNames.length) (names ++ e.localNames)
        (addEntryGroups g idx e.cols e.localNames) rest

def resolvePreprocessedFeatureGroups (entries : List TransEntry) :
    List String × Groups :=
  resolveAux 0 [] [] entries

def mappedIndices (g : Groups) : List Nat := g.flatMap (·.2)

/-! ## SHAP aggregation of `predict_with_shap`

`feature_imp[orig_feat] = float(abs_shap[:, indices].mean())`
(src/ml/inference.py, lines 159-165): the mean of the absolute SHAP values
over all rows and all columns of the group; groups with no indices are
skipped.  `shapTotal` is the code's `shap_total = np.sum(shap_values, axis=1)`
restricted to a single row, which by the SHAP library contract equals the
raw model output minus the explainer's expected value. -/

def meanAbs (sv : List (List ℚ)) (idxs : List Nat) : ℚ :=
  ((sv.map fun row => (idxs.map fun j => |row.getD j 0|).sum).sum) /
    ((sv.length : ℚ) * (idxs.length : ℚ))

def featureImp (g : Groups) (sv : List (List ℚ)) : List (String × ℚ) :=
  g.filterMap fun p => if p.2.isEmpty then none else some (p.1, meanAbs sv p.2)

def shapTotal (row : List ℚ) : ℚ := row.sum

/-- Definition following the spec's words (not the source), for comparison:
per-original-feature signed sums of the per-column Shapley values over the
resolver's groups. -/
def specSignedGroupSums (g : Groups) (row : List ℚ) : List (String × ℚ) :=
  g.map fun p => (p.1, (p.2.map fun j => row.getD j 0).sum)

/-! Concrete resolver inputs used by the counterexamples. -/

def exRename : List TransEntry := [⟨"t", false, ["a"], ["b"]⟩]

def exOverlap : List TransEntry := [⟨"num", false, ["a", "a_b"], ["a", "a_b"]⟩]

/-- C1 (counterexample): with one group `f ↦ [0,1]` and the single-row SHAP
matrix `[[1, -1]]` (whose total, and hence `raw_model_output - expected_value`,
is `0`), the aggregation of `predict_with_shap` yields the per-feature value
`1`: it is the mean of absolute values, not the signed sum (`0`), and the sum
of all per-feature contributions is `1 ≠ 0`, so it does not equal the raw
prediction minus the expected value (the discrepancy `1` is far above any
`1e-6` relative tolerance of `0`). -/
theorem c1_aggregation_counterexample :
    featureImp [("f", [0, 1])] [[1, -1]] = [("f", 1)] ∧
    specSignedGroupSums [("f", [0, 1])] [1, -1] = [("f", 0)] ∧
    ((featureImp [("f", [0, 1])] [[1, -1]]).map (·.2)).sum ≠
      shapTotal [1, -1] := by
  refine ⟨?_, ?_, ?_⟩ <;>
    simp [featureImp, meanAbs, specSignedGroupSums, shapTotal]

/-- C2 (counterexample): for a fitted sub-transformer whose emitted column
name (`"b"`) is neither its original column name (`"a"`) nor prefixed by
`"a_"`, the resolver returns an empty mapping: the original feature `"a"` has
no entry at all (not an empty one), the single output column `0` belongs to
no group, and the mapped indices do not cover the output range. -/
theorem c2_partition_counterexample :
    resolvePreprocessedFeatureGroups exRename = (["b"], []) ∧
    (resolvePreprocessedFeatureGroups exRename).2.all (fun p => p.1 ≠ "a") ∧
    (mappedIndices (resolvePreprocessedFeatureGroups exRename).2).length ≠
      (resolvePreprocessedFeatureGroups exRename).1.length := by
  refine ⟨by decide, by decide, by decide⟩

/-- C3 (counterexample): when the original columns `"a"` and `"a_b"` pass
through one sub-transformer, column `1` (named `"a_b"`) matches both `"a"`
(by the `"a_"` prefix rule) and `"a_b"`, so the resolver maps 3 indices for
2 output columns; the resolver performs no consistency check and returns the
inconsistent mapping normally, and the aggregation then produces attributions
from it rather than aborting. -/
theorem c3_no_failure_counterexample :
    resolvePreprocessedFeatureGroups exOverlap =
      (["a", "a_b"], [("a", [0, 1]), ("a_b", [1])]) ∧
    (mappedIndices (resolvePreprocessedFeatureGroups exOverlap).2).length = 3 ∧
    (resolvePreprocessedFeatureGroups exOverlap).1.length = 2 ∧
    featureImp (resolvePreprocessedFeatureGroups exOverlap).2 [[5, 7]] =
      [("a", 6), ("a_b", 7)] := by
  refine ⟨by decide, by decide, by decide, ?_⟩
  have h : (resolvePreprocessedFeatureGroups exOverlap).2 =
      [("a", [0, 1]), ("a_b", [1])] := by decide
  rw [h]
  simp [featureImp, meanAbs]
  norm_num

/-! ## Structural facts about the resolver's mapping -/

def GroupsBound (B : Nat) (g : Groups) : Prop := ∀ p ∈ g, ∀ i ∈ p.2, i < B

def GroupsKeys (P : String → Prop) (g : Groups) : Prop := ∀ p ∈ g, P p.1

lemma groupsBound_mono {B B₀ : Nat} {g : Groups} (h : GroupsBound B₀ g)
    (hB : B₀ ≤ B) : GroupsBound B g :=
  fun p hp i hi => lt_of_lt_of_le (h p hp i hi) hB

lemma groupsBound_dictAppend {B : Nat} {g : Groups} {k : String} {v : Nat}
    (hg : GroupsBound B g) (hv : v < B) : GroupsBound B (dictAppend g k v) := by
  induction g with
  | nil =>
    intro p hp i hi
    simp [dictAppend] at hp
    subst hp
    simp at hi
    simpa [hi] using hv
  | cons q rest ih =>
    intro p hp i hi
    obtain ⟨k₀, vs⟩ := q
    by_cases hk : k₀ = k
    · simp [dictAppend, hk] at hp
      rcases hp with hp | hp
      · subst hp
        simp at hi
        rcases hi with hi | hi
        · exact hg (k, vs) (by simp [hk]) i hi
        · simpa [hi] using hv
      · exact hg p (by simp [hp]) i hi
    · simp [dictAppend, hk] at hp
      rcases hp with hp | hp
      · subst hp
        exact hg (k₀, vs) (by simp) i hi
      · exact ih (fun r hr j hj => hg r (by simp [hr]) j hj) p hp i hi

lemma groupsKeys_dictAppend {P : String → Prop} {g : Groups} {k : String}
    {v : Nat} (hg : GroupsKeys P g) (hk : P k) :
    GroupsKeys P (dictAppend g k v) := by
  induction g with
  | nil =>
    intro p hp
    simp [dictAppend] at hp
    simp [hp, hk]
  | cons q rest ih =>
    intro p hp
    obtain ⟨k₀, vs⟩ := q
    by_cases hkk : k₀ = k
    · simp [dictAppend, hkk] at hp
      rcases hp with hp | hp
      · simp [hp, hkk, hk]
      · exact hg p (by simp [hp])
    · simp [dictAppend, hkk] at hp
      rcases hp with hp | hp
      · subst hp
        exact hg (k₀, vs) (by simp)
      · exact ih (fun r hr => hg r (by simp [hr])) p hp

lemma groupsBound_addColGroupsAux {B : Nat} {c : String} :
    ∀ (localNames : List String) (g : Groups) (j : Nat),
      GroupsBound B g → j + localNames.length ≤ B →
      GroupsBound B (addColGroupsAux c g j localNames) := by
  intro localNames
  induction localNames with
  | nil => intro g j hg _; simpa [addColGroupsAux] using hg
  | cons nm rest ih =>
    intro g j hg hB
    simp only [List.length_cons] at hB
    simp only [addColGroupsAux]
    refine ih _ (j + 1) ?_ (by omega)
    by_cases hm : matchesOriginal c nm
    · simp only [hm, if_pos]
      exact groupsBound_dictAppend hg (by omega)
    · simpa [hm] using hg

lemma groupsKeys_addColGroupsAux {P : String → Prop} {c : String} (hc : P c) :
    ∀ (localNames : List String) (g : Groups) (j : Nat),
      GroupsKeys P g → GroupsKeys P (addColGroupsAux c g j localNames) := by
  intro localNames
  induction localNames with
  | nil => intro g j hg; simpa [addColGroupsAux] using hg
  | cons nm rest ih =>
    intro g j hg
    simp only [addColGroupsAux]
    refine ih _ (j + 1) ?_
    by_cases hm : matchesOriginal c nm
    · simp only [hm, if_pos]
      exact groupsKeys_dictAppend hg hc
    · simpa [hm] using hg

lemma groupsBound_addEntryGroups {B idx : Nat} {localNames : List String}
    (hB : idx + localNames.length ≤ B) :
    ∀ (cols : List String) (g : Groups), GroupsBound B g →
      GroupsBound B (addEntryGroups g idx cols localNames) := by
  intro cols
  induction cols with
  | nil => intro g hg; simpa [addEntryGroups] using hg
  | cons c rest ih =>
    intro g hg
    simp only [addEntryGroups, List.foldl_cons] at *
    exact ih _ (groupsBound_addColGroupsAux localNames g idx hg hB)

lemma groupsKeys_addEntryGroups {P : String → Prop} {idx : Nat}
    {localNames : List String} :
    ∀ (cols : List String) (g : Groups), (∀ c ∈ cols, P c) → GroupsKeys P g →
      GroupsKeys P (addEntryGroups g idx cols localNames) := by
  intro cols
  induction cols with
  | nil => intro g _ hg; simpa [addEntryGroups] using hg
  | cons c rest ih =>
    intro g hc hg
    simp only [addEntryGroups, List.foldl_cons] at *
    exact ih _ (fun d hd => hc d (by simp [hd]))
      (groupsKeys_addColGroupsAux (hc c (by simp)) localNames g idx hg)

lemma resolveAux_cons_skip {idx : Nat} {names : List String} {g : Groups}
    {e : TransEntry} {rest : List TransEntry}
    (h : e.name = "remainder" ∧ e.isDrop) :
    resolveAux idx names g (e :: rest) = resolveAux idx names g rest := by
  simp [resolveAux, h]

lemma resolveAux_cons {idx : Nat} {names : List String} {g : Groups}
    {e : TransEntry} {rest : List TransEntry}
    (h : ¬(e.name = "remainder" ∧ e.isDrop)) :
    resolveAux idx names g (e :: rest) =
      resolveAux (idx + e.localNames.length) (names ++ e.localNames)
        (addEntryGroups g idx e.cols e.localNames) rest := by
  simp [resolveAux, h]

lemma resolveAux_fst (es : List TransEntry) :
    ∀ (idx : Nat) (names : List String) (g : Groups),
      ∃ t, (resolveAux idx names g es).1 = names ++ t := by
  induction es with
  | nil => intro idx names g; exact ⟨[], by simp [resolveAux]⟩
  | cons e rest ih =>
    intro idx names g
    by_cases hskip : e.name = "remainder" ∧ e.isDrop
    · simpa [resolveAux, hskip] using ih idx names g
    · obtain ⟨t, ht⟩ := ih (idx + e.localNames.length) (names ++ e.localNames)
        (addEntryGroups g idx e.cols e.localNames)
      exact ⟨e.localNames ++ t, by simp [resolveAux, hskip, ht]⟩

lemma resolveAux_bound (es : List TransEntry) :
    ∀ (names : List String) (g : Groups), GroupsBound names.length g →
      GroupsBound (resolveAux names.length names g es).1.length
        (resolveAux names.length names g es).2 := by
  induction es with
  | nil => intro names g hg; simpa [resolveAux] using hg
  | cons e rest ih =>
    intro names g hg
    by_cases hskip : e.name = "remainder" ∧ e.isDrop
    · simpa [resolveAux, hskip] using ih names g hg
    · rw [resolveAux_cons hskip]
      have hg₂ : GroupsBound (names ++ e.localNames).length
          (addEntryGroups g names.length e.cols e.localNames) :=
        groupsBound_addEntryGroups (by simp) e.cols g
          (groupsBound_mono hg (by simp))
      have h := ih (names ++ e.localNames)
        (addEntryGroups g names.length e.cols e.localNames) hg₂
      simpa only [List.length_append] using h

lemma resolveAux_keys (es : List TransEntry) (P : String → Prop) :
    ∀ (idx : Nat) (names : List String) (g : Groups), GroupsKeys P g →
      (∀ e ∈ es, ∀ c ∈ e.cols, P c) →
      GroupsKeys P (resolveAux idx names g es).2 := by
  induction es with
  | nil => intro idx names g hg _; simpa [resolveAux] using hg
  | cons e rest ih =>
    intro idx names g hg hes
    by_cases hskip : e.name = "remainder" ∧ e.isDrop
    · simpa [resolveAux, hskip] using
        ih idx names g hg (fun d hd => hes d (by simp [hd]))
    · rw [resolveAux_cons hskip]
      exact ih _ _ _
        (groupsKeys_addEntryGroups e.cols g (hes e (by simp)) hg)
        (fun d hd => hes d (by simp [hd]))

/-- C2 (amended): what the resolver does guarantee: every index it maps is a
valid output-column index (it lies inside the block of the sub-transformer
that produced it), and every group key is an original input column of one of
the sub-transformers.  The mapping is however not a partition of the output
columns: a feature whose emitted names match neither its own name nor the
`"<name>_"` prefix gets no entry at all (not an empty one) and its columns
belong to no group, as the counterexample shows. -/
theorem c2_resolver_amended (entries : List TransEntry) :
    ∀ p ∈ (resolvePreprocessedFeatureGroups entries).2,
      (∀ i ∈ p.2, i < (resolvePreprocessedFeatureGroups entries).1.length) ∧
      ∃ e ∈ entries, p.1 ∈ e.cols := by
  intro p hp
  constructor
  · have h := resolveAux_bound entries [] [] (by intro q hq; simp at hq)
    exact fun i hi => h p hp i hi
  · exact resolveAux_keys entries (fun k => ∃ e ∈ entries, k ∈ e.cols) 0 [] []
      (by intro q hq; simp at hq) (fun e he c hc => ⟨e, he, hc⟩) p hp

/-- Witness for `c2_resolver_amended` at the concrete transformer of the
counterexamples. -/
theorem c2_resolver_amended_witness :
    (∀ i ∈ (("a", [0, 1]) : String × List Nat).2,
      i < (resolvePreprocessedFeatureGroups exOverlap).1.length) ∧
    ∃ e ∈ exOverlap, (("a", [0, 1]) : String × List Nat).1 ∈ e.cols :=
  c2_resolver_amended exOverlap ("a", [0, 1]) (by decide)

/-! ## What the mean-absolute aggregation does guarantee -/

lemma abs_listSum_le (l : List ℚ) : |l.sum| ≤ (l.map fun x => |x|).sum := by
  induction l with
  | nil => simp
  | cons a t ih =>
    simp only [List.sum_cons, List.map_cons]
    exact le_trans (abs_add a t.sum) (by exact add_le_add_left ih |a|)

/-- C1 (amended): `predict_with_shap` folds per-preprocessed-column Shapley
values into per-original-feature contributions through the resolver's
mapping, but each contribution is the mean of the absolute values over the
group's columns (and rows), not a signed sum: it is always nonnegative, and
the signed Shapley mass of the group is only bounded by (rows × columns)
times the contribution; the sum of the contributions therefore need not
equal the raw model output minus the expected value (see the
counterexample). -/
theorem c1_aggregation_amended (sv : List (List ℚ)) (idxs : List Nat) :
    0 ≤ meanAbs sv idxs ∧
    |(sv.map fun row => (idxs.map fun j => row.getD j 0).sum).sum| ≤
      ((sv.length : ℚ) * (idxs.length : ℚ)) * meanAbs sv idxs := by
  have hT : 0 ≤ (sv.map fun row => (idxs.map fun j => |row.getD j 0|).sum).sum := by
    refine List.sum_nonneg ?_
    intro x hx
    simp only [List.mem_map] at hx
    obtain ⟨row, _, hrow⟩ := hx
    subst hrow
    exact List.sum_nonneg (by
      intro y hy
      simp only [List.mem_map] at hy
      obtain ⟨j, _, hj⟩ := hy
      simpa [← hj] using abs_nonneg (row.getD j 0))
  have habs : |(sv.map fun row => (idxs.map fun j => row.getD j 0).sum).sum| ≤
      (sv.map fun row => (idxs.map fun j => |row.getD j 0|).sum).sum := by
    refine le_trans (abs_listSum_le _) ?_
    rw [List.map_map]
    refine List.sum_le_sum ?_
    intro row _
    simp only [Function.comp_apply]
    refine le_trans (abs_listSum_le _) ?_
    rw [List.map_map]
    exact le_rfl
  constructor
  · exact div_nonneg hT (by positivity)
  · by_cases hz : ((sv.length : ℚ) * (idxs.length : ℚ)) = 0
    · have hS : (sv.map fun row => (idxs.map fun j => row.getD j 0).sum).sum = 0 := by
        rcases mul_eq_zero.mp hz with h0 | h0
        · have : sv = [] := List.length_eq_zero.mp (by exact_mod_cast h0)
          simp [this]
        · have : idxs = [] := List.length_eq_zero.mp (by exact_mod_cast h0)
          simp [this]
      rw [hS, abs_zero, hz, zero_mul]
    · have : ((sv.length : ℚ) * (idxs.length : ℚ)) * meanAbs sv idxs =
          (sv.map fun row => (idxs.map fun j => |row.getD j 0|).sum).sum := by
        rw [meanAbs, mul_div_cancel₀ _ hz]
      rw [this]
      exact habs

/-! ## The aggregation silently ignores unmapped columns -/

lemma absRowSums_congr (idxs : List Nat) :
    ∀ (sv sv' : List (List ℚ)), sv.length = sv'.length →
      (∀ pr ∈ sv.zip sv', ∀ j ∈ idxs, pr.1.getD j 0 = pr.2.getD j 0) →
      (sv.map fun row => (idxs.map fun j => |row.getD j 0|).sum).sum =
        (sv'.map fun row => (idxs.map fun j => |row.getD j 0|).sum).sum := by
  intro sv
  induction sv with
  | nil =>
    intro sv' hlen _
    have h0 : sv' = [] := List.length_eq_zero.mp hlen.symm
    simp [h0]
  | cons r rs ih =>
    intro sv' hlen h
    match sv' with
    | [] => simp at hlen
    | r' :: rs' =>
      simp only [List.length_cons, Nat.succ.injEq] at hlen
      have hrow : (idxs.map fun j => |r.getD j 0|) =
          (idxs.map fun j => |r'.getD j 0|) := by
        refine List.map_congr_left ?_
        intro j hj
        rw [h (r, r') (by simp) j hj]
      have hrest := ih rs' hlen (fun pr hpr => h pr (by simp [hpr]))
      simp only [List.map_cons, List.sum_cons, hrow, hrest]

lemma meanAbs_congr (idxs : List Nat) (sv sv' : List (List ℚ))
    (hlen : sv.length = sv'.length)
    (h : ∀ pr ∈ sv.zip sv', ∀ j ∈ idxs, pr.1.getD j 0 = pr.2.getD j 0) :
    meanAbs sv idxs = meanAbs sv' idxs := by
  unfold meanAbs
  rw [absRowSums_congr idxs sv sv' hlen h, hlen]

lemma featureImp_congr (sv sv' : List (List ℚ)) :
    ∀ g : Groups, (∀ p ∈ g, meanAbs sv p.2 = meanAbs sv' p.2) →
      featureImp g sv = featureImp g sv' := by
  intro g
  induction g with
  | nil => intro _; rfl
  | cons q rest ih =>
    intro h
    simp only [featureImp, List.filterMap_cons]
    by_cases hq : q.2.isEmpty
    · simp only [hq, if_pos]
      exact ih (fun p hp => h p (by simp [hp]))
    · simp only [hq, if_neg, Bool.false_eq_true, not_false_eq_true]
      rw [h q (by simp)]
      have := ih (fun p hp => h p (by simp [hp]))
      simp only [featureImp] at this
      rw [this]

/-- C3 (amended): the resolver performs no consistency check: it returns its
mapping unconditionally even when the mapped-index count differs from the
output width (see the counterexample), and attribution simply proceeds with
that mapping — the aggregated attributions depend only on the columns the
mapping covers, so any output column left unmapped is silently ignored. -/
theorem c3_resolver_amended (entries : List TransEntry)
    (sv sv' : List (List ℚ)) (hlen : sv.length = sv'.length)
    (hagree : ∀ pr ∈ sv.zip sv',
      ∀ j ∈ mappedIndices (resolvePreprocessedFeatureGroups entries).2,
        pr.1.getD j 0 = pr.2.getD j 0) :
    featureImp (resolvePreprocessedFeatureGroups entries).2 sv =
      featureImp (resolvePreprocessedFeatureGroups entries).2 sv' := by
  refine featureImp_congr sv sv' _ ?_
  intro p hp
  refine meanAbs_congr p.2 sv sv' hlen ?_
  intro pr hpr j hj
  exact hagree pr hpr j (List.mem_flatMap.mpr ⟨p, hp, hj⟩)

/-- Witness for `c3_resolver_amended`: two SHAP matrices that differ only in
the unmapped third column produce identical attributions. -/
theorem c3_resolver_amended_witness :
    featureImp (resolvePreprocessedFeatureGroups exOverlap).2 [[5, 7, 100]] =
      featureImp (resolvePreprocessedFeatureGroups exOverlap).2 [[5, 7, -3]] :=
  c3_resolver_amended exOverlap [[5, 7, 100]] [[5, 7, -3]] rfl (by decide)

/-! ## Python `str.replace` and `str.split("_")` (character-level, fuelled) -/

def pyReplaceAux (pat rep : List Char) : Nat → List Char → List Char
  | _, [] => []
  | 0, s => s
  | Nat.succ fuel, c :: rest =>
    if pat.isPrefixOf (c :: rest) then
      rep ++ pyReplaceAux pat rep fuel ((c :: rest).drop pat.length)
    else c :: pyReplaceAux pat rep fuel rest

def pyReplace (s pat rep : String) : String :=
  String.mk (pyReplaceAux pat.data rep.data s.data.length s.data)

def pySplitUnderscoreAux : List Char → List Char → List (List Char)
  | acc, [] => [acc.reverse]
  | acc, c :: rest =>
    if c = '_' then acc.reverse :: pySplitUnderscoreAux [] rest
    else pySplitUnderscoreAux (c :: acc) rest

def pySplitUnderscore (s : String) : List String :=
  (pySplitUnderscoreAux [] s.data).map String.mk

/-! ## Feature-name prettifying and canonicalization

Embedding of `_pretty_feature_name` (src/app/report_text.py, lines 537-591)
and `_normalize_feature_name` (lines 599-658).  Python `dict` literals are
insertion-ordered association lists; `for key, value in d.items(): if key in
feature.lower(): return value` is `find?` over that list. -/

def prettyMapping : List (String × String) :=
  [("mkt_roas_grab", "ROAS (GRAB)"),
   ("mkt_roas_gojek", "ROAS (GOJEK)"),
   ("mkt_ads_spend_grab", "Рекламный бюджет (GRAB)"),
   ("mkt_ads_spend_gojek", "Рекламный бюджет (GOJEK)"),
   ("ads_spend_total", "Рекламный бюджет (суммарно)"),
   ("impressions_total", "Показы рекламы"),
   ("preparation_time_mean", "Среднее время приготовления (мин)"),
   ("accepting_time_mean", "Среднее время подтверждения (мин)"),
   ("delivery_time_mean", "Среднее время доставки (мин)"),
   ("ops_preparation_time_gojek", "GOJEK: время приготовления"),
   ("ops_accepting_time_gojek", "GOJEK: время подтверждения"),
   ("ops_delivery_time_gojek", "GOJEK: время доставки"),
   ("outage_offline_rate_grab", "GRAB: оффлайн (мин)"),
   ("offline_rate_grab", "GRAB: оффлайн (мин)"),
   ("rain", "Дождь (мм)"),
   ("temp", "Температура (°C)"),
   ("wind", "Ветер"),
   ("humidity", "Влажность (%)"),
   ("tourist_flow", "Туристический поток"),
   ("is_holiday", "Праздник"),
   ("day_of_week", "День недели"),
   ("is_weekend", "Выходной"),
   ("rating", "Средний рейтинг")]

def lastUnderscorePartUpper (n : String) : String :=
  pyUpper ((pySplitUnderscore n).getLastD "")

def prettyFeatureName (name : String) : String :=
  let n := pyLower name
  match prettyMapping.find? (fun p => p.1 = n) with
  | some p => p.2
  | none =>
    if "ops_preparation_time_".data.isPrefixOf n.data then
      lastUnderscorePartUpper n ++ ": время приготовления"
    else if "ops_accepting_time_".data.isPrefixOf n.data then
      lastUnderscorePartUpper n ++ ": время подтверждения"
    else if "ops_delivery_time_".data.isPrefixOf n.data then
      lastUnderscorePartUpper n ++ ": время доставки"
    else if "mkt_roas_".data.isPrefixOf n.data then
      "ROAS (" ++ lastUnderscorePartUpper n ++ ")"
    else if "mkt_ads_spend_".data.isPrefixOf n.data then
      "Рекламный бюджет (" ++ lastUnderscorePartUpper n ++ ")"
    else
      pyReplace (pyReplace (pyReplace (pyReplace name "_" " ")
        "grab" "GRAB") "gojek" "GOJEK") "roas" "ROAS"

def weatherMap : List (String × String) :=
  [("rain", "Дождь"), ("humidity", "Влажность"), ("wind", "Ветер"),
   ("temp", "Температура"), ("temperature", "Температура")]

def marketingMap : List (String × String) :=
  [("ads_spend", "Рекламный бюджет"),
   ("ads_sales", "Рекламные продажи"),
   ("roas", "ROAS"),
   ("grab_ads_spend", "GRAB: рекламный бюджет"),
   ("gojek_ads_spend", "GOJEK: рекламный бюджет"),
   ("grab_roas", "GRAB: ROAS"),
   ("gojek_roas", "GOJEK: ROAS")]

def opsMap : List (String × String) :=
  [("confirm_time", "Время подтверждения"),
   ("delivery_time", "Время доставки"),
   ("rating", "Рейтинг"),
   ("cancelled_orders", "Отмены"),
   ("lost_orders", "Потери")]

def normalizeFeatureName (feature : String) : String :=
  let fl := pyLower feature
  if strContains fl "prep_time" || strContains fl "preparation_time" then
    "Время приготовления"
  else if strContains fl "humidity_lag" || strContains fl "wind_lag" ||
      strContains fl "temp_lag" || strContains fl "rain_lag" then
    let weatherType :=
      if strContains fl "humidity" then "влажность"
      else if strContains fl "wind" then "ветер"
      else if strContains fl "temp" then "температура"
      else if strContains fl "rain" then "дождь"
      else ""
    "Погода: " ++ weatherType ++ " (предыдущие дни)"
  else if fl = "rain" || fl = "humidity" || fl = "wind" || fl = "temp" ||
      fl = "temperature" then
    "Погода: " ++ ((weatherMap.find? (fun p => p.1 = fl)).map (·.2)).getD feature
  else match marketingMap.find? (fun p => strContains fl p.1) with
  | some p => p.2
  | none =>
    match opsMap.find? (fun p => strContains fl p.1) with
    | some p => p.2
    | none => prettyFeatureName feature

/-! ## Python's stable sorts (`list.sort(key=..., reverse=True)` / `sorted`) -/

def pyInsertDesc {α : Type} (key : α → ℚ) (x : α) : List α → List α
  | [] => [x]
  | y :: ys => if key y ≤ key x then x :: y :: ys else y :: pyInsertDesc key x ys

def pySortDesc {α : Type} (key : α → ℚ) (l : List α) : List α :=
  l.foldr (pyInsertDesc key) []

def pyInsertAsc {α : Type} (key : α → ℚ) (x : α) : List α → List α
  | [] => [x]
  | y :: ys => if key x ≤ key y then x :: y :: ys else y :: pyInsertAsc key x ys

def pySortAsc {α : Type} (key : α → ℚ) (l : List α) : List α :=
  l.foldr (pyInsertAsc key) []

lemma mem_pyInsertDesc {α : Type} (key : α → ℚ) (x : α) (l : List α) (a : α) :
    a ∈ pyInsertDesc key x l ↔ a = x ∨ a ∈ l := by
  induction l with
  | nil => simp [pyInsertDesc]
  | cons y ys ih =>
    by_cases h : key y ≤ key x
    · simp [pyInsertDesc, h]
    · simp [pyInsertDesc, h, ih]
      tauto

lemma mem_pySortDesc {α : Type} (key : α → ℚ) (l : List α) (a : α) :
    a ∈ pySortDesc key l ↔ a ∈ l := by
  induction l with
  | nil => simp [pySortDesc]
  | cons y ys ih =>
    simp only [pySortDesc, List.foldr_cons] at *
    rw [mem_pyInsertDesc, ih, List.mem_cons]

lemma mem_pyInsertAsc {α : Type} (key : α → ℚ) (x : α) (l : List α) (a : α) :
    a ∈ pyInsertAsc key x l ↔ a = x ∨ a ∈ l := by
  induction l with
  | nil => simp [pyInsertAsc]
  | cons y ys ih =>
    by_cases h : key x ≤ key y
    · simp [pyInsertAsc, h]
    · simp [pyInsertAsc, h, ih]
      tauto

lemma mem_pySortAsc {α : Type} (key : α → ℚ) (l : List α) (a : α) :
    a ∈ pySortAsc key l ↔ a ∈ l := by
  induction l with
  | nil => simp [pySortAsc]
  | cons y ys ih =>
    simp only [pySortAsc, List.foldr_cons] at *
    rw [mem_pyInsertAsc, ih, List.mem_cons]

lemma length_pyInsertDesc {α : Type} (key : α → ℚ) (x : α) (l : List α) :
    (pyInsertDesc key x l).length = l.length + 1 := by
  induction l with
  | nil => rfl
  | cons y ys ih =>
    by_cases h : key y ≤ key x
    · simp [pyInsertDesc, h]
    · simp [pyInsertDesc, h, ih]

lemma length_pySortDesc {α : Type} (key : α → ℚ) (l : List α) :
    (pySortDesc key l).length = l.length := by
  induction l with
  | nil => rfl
  | cons y ys ih =>
    simp only [pySortDesc, List.foldr_cons] at *
    rw [length_pyInsertDesc, ih, List.length_cons]

lemma sorted_pyInsertAsc {α : Type} (key : α → ℚ) (x : α) (l : List α)
    (h : l.Sorted (fun a b => key a ≤ key b)) :
    (pyInsertAsc key x l).Sorted (fun a b => key a ≤ key b) := by
  induction l with
  | nil => simp [pyInsertAsc]
  | cons y ys ih =>
    rw [List.sorted_cons] at h
    by_cases hxy : key x ≤ key y
    · simp only [pyInsertAsc, hxy, if_pos]
      rw [List.sorted_cons]
      refine ⟨?_, by rw [List.sorted_cons]; exact ⟨h.1, h.2⟩⟩
      intro b hb
      rcases List.mem_cons.mp hb with hb | hb
      · exact hb ▸ hxy
      · exact le_trans hxy (h.1 b hb)
    · simp only [pyInsertAsc, hxy, if_neg, not_false_eq_true]
      rw [List.sorted_cons]
      refine ⟨?_, ih h.2⟩
      intro b hb
      rcases (mem_pyInsertAsc key x ys b).mp hb with hb | hb
      · exact hb ▸ le_of_not_le hxy
      · exact h.1 b hb

lemma sorted_pySortAsc {α : Type} (key : α → ℚ) (l : List α) :
    (pySortAsc key l).Sorted (fun a b => key a ≤ key b) := by
  induction l with
  | nil => simp [pySortAsc]
  | cons y ys ih =>
    simp only [pySortAsc, List.foldr_cons] at *
    exact sorted_pyInsertAsc key y _ ih

/-! ## Per-day significance filter of section 8

Embedding of the thresholds (src/app/report_text.py, lines 594-597) and of
the factor-selection loop of `_analyze_critical_day_improved`
(lines 766-790): a negative column is kept only when its share of the day's
loss reaches `MIN_NEG_SHARE` AND its absolute contribution reaches
`MIN_NEG_IDR`; the kept factors are stably sorted by contribution
(descending) and cut to the top 5 (negative) and top 3 (positive).
`zip features shap_values` pairs the model's original feature-name list
positionally with the per-preprocessed-column SHAP values. -/

def MIN_NEG_SHARE : ℚ := 2 / 100

def MIN_NEG_IDR : ℚ := 100000

def REPORT_STRICT_MODE : Bool := true

def selectDayFactors (features : List String) (shapValues : List ℚ)
    (lossAmount : ℚ) : List (String × ℚ × ℚ) × List (String × ℚ) :=
  let pairs := features.zip shapValues
  let negativeFactors := pairs.filterMap fun fv =>
    if fv.2 < 0 then
      let contributionIdr := |fv.2|
      let contributionShare := if lossAmount > 0 then |fv.2| / lossAmount else 0
      if MIN_NEG_SHARE ≤ contributionShare ∧ MIN_NEG_IDR ≤ contributionIdr then
        some (normalizeFeatureName fv.1, contributionIdr, contributionShare * 100)
      else none
    else none
  let positiveFactors := pairs.filterMap fun fv =>
    if fv.2 > 0 then some (normalizeFeatureName fv.1, fv.2) else none
  ((pySortDesc (fun x => x.2.1) negativeFactors).take 5,
   (pySortDesc (fun x => x.2) positiveFactors).take 3)

/-- C4 (counterexample): a negative contributor whose share of the day's loss
is 5% — above both the code's 2% minimum and the spec's 3–5% default — but
whose monetary contribution (50 000) is below the 100 000 minimum is NOT
selected: the looser of the two conditions does not suffice, because the code
requires both (`and`, not `or`). -/
theorem c4_threshold_counterexample :
    (selectDayFactors ["rating"] [-50000] 1000000).1 = [] ∧
    MIN_NEG_SHARE ≤ |(-50000 : ℚ)| / 1000000 ∧
    ¬ MIN_NEG_IDR ≤ |(-50000 : ℚ)| := by
  refine ⟨?_, by norm_num [MIN_NEG_SHARE], by norm_num [MIN_NEG_IDR]⟩
  simp [selectDayFactors, MIN_NEG_SHARE, MIN_NEG_IDR, pySortDesc]
  norm_num

/-- C4 (amended): a negative contributor is selected only when its share of
the day's loss meets `MIN_NEG_SHARE` AND its monetary contribution meets
`MIN_NEG_IDR` (the conjunction of the two thresholds, which also forces the
day's loss to be positive), and the selection is capped at the top 5 negative
and top 3 positive factors. -/
theorem c4_selection_amended (features : List String) (shapValues : List ℚ)
    (lossAmount : ℚ) :
    (∀ x ∈ (selectDayFactors features shapValues lossAmount).1,
      MIN_NEG_IDR ≤ x.2.1 ∧ 0 < lossAmount ∧
        MIN_NEG_SHARE * 100 ≤ x.2.2) ∧
    (selectDayFactors features shapValues lossAmount).1.length ≤ 5 ∧
    (selectDayFactors features shapValues lossAmount).2.length ≤ 3 := by
  refine ⟨?_, ?_, ?_⟩
  · intro x hx
    have hx₂ := (mem_pySortDesc _ _ x).mp (List.mem_of_mem_take hx)
    simp only [List.mem_filterMap] at hx₂
    obtain ⟨fv, _, hfv⟩ := hx₂
    by_cases hneg : fv.2 < 0
    · simp only [hneg, if_pos] at hfv
      by_cases hsel : MIN_NEG_SHARE ≤ (if lossAmount > 0 then |fv.2| / lossAmount else 0) ∧
          MIN_NEG_IDR ≤ |fv.2|
      · rw [if_pos hsel] at hfv
        obtain rfl := Option.some.inj hfv
        obtain ⟨hshare, hidr⟩ := hsel
        by_cases hl : lossAmount > 0
        · rw [if_pos hl] at hshare
          refine ⟨hidr, hl, ?_⟩
          simp only [if_pos hl]
          exact mul_le_mul_of_nonneg_right hshare (by norm_num)
        · rw [if_neg hl] at hshare
          exact absurd hshare (by norm_num [MIN_NEG_SHARE])
      · rw [if_neg hsel] at hfv
        exact absurd hfv (by simp)
    · simp only [hneg, if_neg, not_false_eq_true] at hfv
      exact absurd hfv (by simp)
  · exact List.length_take_le 5 _
  · exact List.length_take_le 3 _

/-- Witness for `c4_selection_amended`: the factor selected at a concrete
input indeed meets both thresholds. -/
theorem c4_selection_amended_witness :
    MIN_NEG_IDR ≤ (("Рейтинг", (200000 : ℚ), (20 : ℚ)) : String × ℚ × ℚ).2.1 ∧
    (0 : ℚ) < 1000000 ∧
    MIN_NEG_SHARE * 100 ≤ (("Рейтинг", (200000 : ℚ), (20 : ℚ)) : String × ℚ × ℚ).2.2 :=
  (c4_selection_amended ["rating"] [-200000] 1000000).1
    ("Рейтинг", 200000, 20)
    (by
      have hn : normalizeFeatureName "rating" = "Рейтинг" := by decide
      norm_num [selectDayFactors, MIN_NEG_SHARE, MIN_NEG_IDR, pySortDesc,
        pyInsertDesc, hn, List.filterMap_cons, List.filterMap_nil,
        List.foldr_cons, List.foldr_nil])

/-- C5 (counterexample): two platform variants of preparation time are both
renamed to the same canonical label "Время приготовления", but their
contributions are not summed and the duplicates are not merged before the
top-N cut: both occupy top-5 slots of the same day under one label. -/
theorem c5_canonicalization_counterexample :
    (selectDayFactors ["gojek_prep_time", "grab_preparation_time"]
        [-200000, -150000] 1000000).1 =
      [("Время приготовления", 200000, 20),
       ("Время приготовления", 150000, 15)] ∧
    ¬ ((selectDayFactors ["gojek_prep_time", "grab_preparation_time"]
        [-200000, -150000] 1000000).1.map (·.1)).Nodup := by
  have hn1 : normalizeFeatureName "gojek_prep_time" = "Время приготовления" := by
    decide
  have hn2 : normalizeFeatureName "grab_preparation_time" =
      "Время приготовления" := by decide
  have h : (selectDayFactors ["gojek_prep_time", "grab_preparation_time"]
        [-200000, -150000] 1000000).1 =
      [("Время приготовления", 200000, 20),
       ("Время приготовления", 150000, 15)] := by
    norm_num [selectDayFactors, MIN_NEG_SHARE, MIN_NEG_IDR, pySortDesc,
      pyInsertDesc, hn1, hn2, List.filterMap_cons, List.filterMap_nil,
      List.foldr_cons, List.foldr_nil]
  refine ⟨h, ?_⟩
  rw [h]
  decide

/-- C5 (amended): canonical renaming is applied before the top-N cut (every
selected entry's label is `normalizeFeatureName` of the original feature it
came from, with that feature's own contribution), but same-label variants are
not merged and their contributions are not summed, so one canonical label can
occupy several top-N slots (see the counterexample). -/
theorem c5_canonicalization_amended (features : List String)
    (shapValues : List ℚ) (lossAmount : ℚ) :
    ∀ x ∈ (selectDayFactors features shapValues lossAmount).1,
      ∃ fv ∈ features.zip shapValues, fv.2 < 0 ∧
        x.1 = normalizeFeatureName fv.1 ∧ x.2.1 = |fv.2| := by
  intro x hx
  have hx₂ := (mem_pySortDesc _ _ x).mp (List.mem_of_mem_take hx)
  simp only [List.mem_filterMap] at hx₂
  obtain ⟨fv, hmem, hfv⟩ := hx₂
  by_cases hneg : fv.2 < 0
  · simp only [hneg, if_pos] at hfv
    by_cases hsel : MIN_NEG_SHARE ≤
        (if lossAmount > 0 then |fv.2| / lossAmount else 0) ∧
        MIN_NEG_IDR ≤ |fv.2|
    · rw [if_pos hsel] at hfv
      obtain rfl := Option.some.inj hfv
      exact ⟨fv, hmem, hneg, rfl, rfl⟩
    · rw [if_neg hsel] at hfv
      exact absurd hfv (by simp)
  · simp only [hneg, if_neg, not_false_eq_true] at hfv
    exact absurd hfv (by simp)

/-- Witness for `c5_canonicalization_amended` at a concrete selected factor. -/
theorem c5_canonicalization_amended_witness :
    ∃ fv ∈ (["rating"].zip [(-200000 : ℚ)]), fv.2 < 0 ∧
      (("Рейтинг", (200000 : ℚ), (20 : ℚ)) : String × ℚ × ℚ).1 =
        normalizeFeatureName fv.1 ∧
      (("Рейтинг", (200000 : ℚ), (20 : ℚ)) : String × ℚ × ℚ).2.1 = |fv.2| :=
  c5_canonicalization_amended ["rating"] [-200000] 1000000
    ("Рейтинг", 200000, 20)
    (by
      have hn : normalizeFeatureName "rating" = "Рейтинг" := by decide
      norm_num [selectDayFactors, MIN_NEG_SHARE, MIN_NEG_IDR, pySortDesc,
        pyInsertDesc, hn, List.filterMap_cons, List.filterMap_nil,
        List.foldr_cons, List.foldr_nil])

/-! ## Critical-Period Detector

Embedding of `_section8_critical_days_ml`, lines 675-680: the daily series
is `sub.groupby("date")["total_sales"].sum()` sorted by date (dates come out
sorted and unique); the baseline is the pandas median of the daily totals
(computed once for the query window); the threshold is `0.70 * median`; the
flagged days are those with total at or below the threshold, sorted by their
total sales ascending (`sorted(critical_dates, key=day_sales)`). -/

structure DayRow where
  date : Nat
  total_sales : ℚ
  orders_count : ℚ
  is_holiday : Int
  rain : Option ℚ
  temp : ℚ
deriving DecidableEq

def sortedUniqueDates (rows : List DayRow) : List Nat :=
  (pySortAsc (fun d : Nat => (d : ℚ)) (rows.map (·.date))).dedup

def dailyTotals (rows : List DayRow) : List (Nat × ℚ) :=
  (sortedUniqueDates rows).map fun d =>
    (d, ((rows.filter (fun r => r.date = d)).map (·.total_sales)).sum)

def pdMedian (xs : List ℚ) : ℚ :=
  let s := pySortAsc id xs
  if xs.length % 2 = 1 then s.getD (xs.length / 2) 0
  else (s.getD (xs.length / 2 - 1) 0 + s.getD (xs.length / 2) 0) / 2

def medianSales (daily : List (Nat × ℚ)) : ℚ :=
  if daily.length = 0 then 0 else pdMedian (daily.map (·.2))

def lookupDailySales (daily : List (Nat × ℚ)) (d : Nat) : ℚ :=
  ((daily.filter (fun p => p.1 = d)).map (·.2)).headD 0

def criticalDates (daily : List (Nat × ℚ)) (threshold : ℚ) : List Nat :=
  pySortAsc (fun d => lookupDailySales daily d)
    ((daily.filter (fun p => p.2 ≤ threshold)).map (·.1))

def exDaily : List (Nat × ℚ) :=
  [(1, 1), (2, 2), (3, 10), (4, 10), (5, 10), (6, 10), (7, 10)]

/-- C6 (counterexample): on a 7-day window with median 10 (threshold 7) and
two flagged days with sales 1 and 2, the detector returns `[1, 2]`: the day
with the larger shortfall (severity 9) comes before the day with the smaller
shortfall (severity 8), so the list is sorted by sales ascending — severity
descending, not ascending. -/
theorem c6_detector_counterexample :
    criticalDates exDaily (7 / 10 * medianSales exDaily) = [1, 2] ∧
    medianSales exDaily - lookupDailySales exDaily 1 >
      medianSales exDaily - lookupDailySales exDaily 2 := by
  have hm : medianSales exDaily = 10 := by
    norm_num [medianSales, exDaily, pdMedian, pySortAsc, pyInsertAsc]
  constructor
  · rw [hm]
    norm_num [criticalDates, exDaily, lookupDailySales, pySortAsc, pyInsertAsc]
  · rw [hm]
    norm_num [lookupDailySales, exDaily]

/-- C6 (amended): the detector computes the median baseline and the threshold
`0.70 × median` once for the whole query window and flags exactly the days of
the daily series whose total sales are at or below that single threshold; the
flagged days are returned sorted ascending by their total sales — that is,
most severe (largest shortfall) first, descending by severity. -/
theorem c6_detector_amended (daily : List (Nat × ℚ)) :
    (∀ d, d ∈ criticalDates daily (7 / 10 * medianSales daily) ↔
      ∃ s, (d, s) ∈ daily ∧ s ≤ 7 / 10 * medianSales daily) ∧
    (criticalDates daily (7 / 10 * medianSales daily)).Sorted
      (fun a b => lookupDailySales daily a ≤ lookupDailySales daily b) := by
  constructor
  · intro d
    rw [criticalDates, mem_pySortAsc]
    simp only [List.mem_map, List.mem_filter]
    constructor
    · rintro ⟨p, ⟨hp, hle⟩, rfl⟩
      exact ⟨p.2, hp, by simpa using hle⟩
    · rintro ⟨s, hs, hle⟩
      exact ⟨(d, s), ⟨hs, by simpa using hle⟩, rfl⟩
  · exact sorted_pySortAsc _ _

/-! ## Number formatting of the report

`_fmt_idr` (src/app/report_text.py, lines 23-29): `f"{int(round(float(x))):,}
IDR".replace(",", " ")`, with Python's banker's rounding and comma grouping;
`fmtFixed d` is the fixed-point f-string format `{x:.df}` and `fmtFixedSigned`
is `{x:+.df}`, modelled over ℚ. -/

def pyRound (q : ℚ) : Int :=
  let f := Int.floor q
  let r := q - f
  if r < 1 / 2 then f
  else if 1 / 2 < r then f + 1
  else if f % 2 = 0 then f else f + 1

def commaRevAux : Nat → List Char → List Char
  | _, [] => []
  | k, c :: rest =>
    if k = 3 then ',' :: c :: commaRevAux 1 rest else c :: commaRevAux (k + 1) rest

def pyFormatComma (n : Int) : String :=
  let ds := Nat.toDigits 10 n.natAbs
  let grouped := String.mk (commaRevAux 0 ds.reverse).reverse
  if n < 0 then "-" ++ grouped else grouped

def fmtIdr (x : Option ℚ) : String :=
  match x with
  | none => "—"
  | some q => pyReplace (pyFormatComma (pyRound q) ++ " IDR") "," " "

def fmtFixed (d : Nat) (q : ℚ) : String :=
  let m := (pyRound (|q| * ((10 : ℚ) ^ d))).toNat
  let ip := m / 10 ^ d
  let fp := m % 10 ^ d
  let fracDigits := Nat.toDigits 10 fp
  (if q < 0 then "-" else "") ++ toString ip ++
    (if d = 0 then "" else
      "." ++ String.mk (List.replicate (d - fracDigits.length) '0' ++ fracDigits))

def fmtFixedSigned (d : Nat) (q : ℚ) : String :=
  (if q < 0 then "" else "+") ++ fmtFixed d q

/-! ## The live per-day analysis of section 8

Embedding of `_analyze_critical_day_improved` (src/app/report_text.py, lines
706-905) and of the surrounding `_section8_critical_days_ml` body
(lines 663-949).  External effects are inputs: `DayML` is the outcome of the
`try` block's model loading and SHAP computation for one day (`exc` is any
exception raised there, caught by the handler at line 898); `Ext.fmtDate` is
`strftime('%Y-%m-%d')`; `Ext.strNum` is Python's rendering of a raw float in
an f-string; `Ext.nameErrMsg` is `str(e)` for the `NameError` raised at lines
821/824, where the undefined function `_check_holiday_by_date_simple` is
called whenever the day has `is_holiday == 1`.  `REPORT_STRICT_MODE` is the
module constant `True`.  Python reports are joined with the two-character
separator `"\\n"` (a backslash and an `n`, as in the source's
`"\\n".join(lines)`), while the no-data and insufficient-data messages use
real newlines, as in the source literals. -/

inductive DayML where
  | exc (msg : String)
  | modelMissing
  | featuresMissing
  | ok (features : List String) (sv : List ℚ)

structure ReportExt where
  dayML : Nat → DayML
  fmtDate : Nat → String
  strNum : ℚ → String
  nameErrMsg : String

def sep72 : String := String.mk (List.replicate 72 '═')

def sep40 : String := String.mk (List.replicate 40 '─')

def mlErrorLines (msg : String) : List String :=
  if REPORT_STRICT_MODE then
    ["### ⚠️ **ML АНАЛИЗ НЕДОСТУПЕН**",
     "Ошибка ML анализа: " ++ msg,
     "Используйте базовый анализ или переобучите модель.",
     ""]
  else []

def prioEmoji (pct : ℚ) : String :=
  if pct ≥ 15 then "🔴" else if pct ≥ 7 then "🟡" else "🟢"

def realCausesLines (negF : List (String × ℚ × ℚ)) : List String :=
  "### 🔍 **РЕАЛЬНЫЕ ПРИЧИНЫ**" ::
    (List.enumFrom 1 negF).flatMap fun ix =>
      ["**" ++ toString ix.1 ++ ". " ++ prioEmoji ix.2.2.2 ++ " " ++
        pyUpper ix.2.1 ++ "**",
       "- **Влияние:** " ++ fmtIdr (some ix.2.2.1) ++ " (" ++
        fmtFixed 1 ix.2.2.2 ++ "% от потерь)",
       ""]

def rainLine (ext : ReportExt) (r : DayRow) (negF : List (String × ℚ × ℚ)) : String :=
  let rainMm := r.rain.getD 0
  let rainContribution := ((negF.find? fun x =>
      strContains (pyLower x.1) "дождь" || strContains (pyLower x.1) "rain").map
        (·.2.1)).getD 0
  if rainMm ≥ 2 ∧ MIN_NEG_IDR ≤ rainContribution then
    "**🌧️ Погода:** " ++ (if rainMm ≥ 10 then "сильный дождь" else "дождь") ++
      " " ++ fmtFixed 1 rainMm ++ "мм — снизил активность курьеров"
  else if rainMm ≥ 2 then
    "**🌧️ Погода:** дождь " ++ fmtFixed 1 rainMm ++ "мм (влияние незначительное)"
  else
    "**🌧️ Погода:** без дождя, комфортная температура " ++ ext.strNum r.temp ++
      "°C"

def positiveLines (posF : List (String × ℚ)) : List String :=
  if posF.isEmpty then []
  else
    "### ✅ **ЧТО ПОМОГЛО ИЗБЕЖАТЬ БОЛЬШИХ ПОТЕРЬ**" ::
      (posF.flatMap fun x =>
        ["**💪 " ++ x.1 ++ ":**",
         "- Положительный эффект: +" ++ fmtIdr (some x.2)]) ++ [""]

def recommendationFor (i : Nat) (x : String × ℚ × ℚ) : List String × ℚ :=
  let priority := prioEmoji x.2.2
  let nl := pyLower x.1
  if strContains nl "бюджет" then
    (["**" ++ toString i ++ ". " ++ priority ++ " Оптимизировать рекламный бюджет**",
      "- **Потенциальный эффект:** " ++ fmtIdr (some (x.2.1 * (8 / 10)))],
     x.2.1 * (8 / 10))
  else if strContains nl "время" then
    (["**" ++ toString i ++ ". " ++ priority ++ " Ускорить операционные процессы**",
      "- **Потенциальный эффект:** " ++ fmtIdr (some (x.2.1 * (6 / 10)))],
     x.2.1 * (6 / 10))
  else if strContains nl "рейтинг" then
    (["**" ++ toString i ++ ". " ++ priority ++ " Улучшить качество сервиса**",
      "- **Потенциальный эффект:** " ++ fmtIdr (some (x.2.1 * (7 / 10)))],
     x.2.1 * (7 / 10))
  else
    (["**" ++ toString i ++ ". " ++ priority ++ " Исправить " ++ nl ++ "**",
      "- **Потенциальный эффект:** " ++ fmtIdr (some (x.2.1 * (5 / 10)))],
     x.2.1 * (5 / 10))

def recommendationBlock (negF : List (String × ℚ × ℚ)) (lossAmount : ℚ) :
    List String :=
  let recs := (List.enumFrom 1 (negF.take 3)).map fun ix =>
    recommendationFor ix.1 ix.2
  let totalPotential := (recs.map (·.2)).sum
  let recoveryPct := if lossAmount > 0 then totalPotential / lossAmount * 100 else 0
  "### 🎯 **КОНКРЕТНЫЕ РЕКОМЕНДАЦИИ**" :: recs.flatMap (·.1) ++
    ["",
     "### 💰 **ФИНАНСОВЫЙ ИТОГ**",
     "- **Общий потенциал восстановления:** " ++ fmtIdr (some totalPotential) ++
      " (" ++ fmtFixed 0 recoveryPct ++ "% от потерь)",
     ""]

def dayMLLines (ext : ReportExt) (r : DayRow) (lossAmount : ℚ) : List String :=
  match ext.dayML r.date with
  | DayML.exc msg => mlErrorLines msg
  | DayML.modelMissing =>
    ["### ⚠️ **АНАЛИЗ НЕДОСТУПЕН**",
     "ML модель не обучена. Запустите обучение для получения детального анализа."]
  | DayML.featuresMissing =>
    ["### ⚠️ **ДАННЫХ НЕДОСТАТОЧНО**",
     "Отсутствуют необходимые features для ML анализа."]
  | DayML.ok features sv =>
    let fac := selectDayFactors features sv lossAmount
    if fac.1.length < 2 then
      ["### ⚠️ **ДАННЫХ НЕДОСТАТОЧНО**",
       "Найдено менее 2 значимых факторов. ML анализ неточен."]
    else
      realCausesLines fac.1 ++ ["### 🌍 **ВНЕШНИЕ ФАКТОРЫ**"] ++
        (if r.is_holiday = 1 then
          mlErrorLines ext.nameErrMsg
        else
          ("**🕌 Праздники:** обычный день" :: [rainLine ext r fac.1]) ++ [""] ++
            positiveLines fac.2 ++ recommendationBlock fac.1 lossAmount)

def analyzeCriticalDay (ext : ReportExt) (rows : List DayRow) (medianS : ℚ)
    (d : Nat) : List String :=
  match (rows.filter (fun r => r.date = d)).head? with
  | none => ["🔴 " ++ ext.fmtDate d ++ ": нет данных"]
  | some r =>
    let daySales := r.total_sales
    let lossAmount := max (medianS - daySales) 0
    let lossPct := if medianS > 0 then (daySales - medianS) / medianS * 100 else 0
    ["🔴 " ++ ext.fmtDate d,
     "",
     "### 📊 **КЛЮЧЕВЫЕ ЦИФРЫ**",
     "- **Продажи:** " ++ fmtIdr (some daySales) ++ " (медиана: " ++
      fmtIdr (some medianS) ++ ") → **" ++ fmtFixedSigned 1 lossPct ++ "%**",
     "- **Потери:** " ++ fmtIdr (some lossAmount)] ++
    (if r.orders_count > 0 then
      ["- **Заказы:** " ++ ext.strNum r.orders_count ++ " шт",
       "- **Средний чек:** " ++ fmtIdr (some (daySales / r.orders_count))]
     else []) ++
    [""] ++ dayMLLines ext r lossAmount

def headerLines (ncrit ndaily : Nat) (medianS threshold : ℚ) : List String :=
  ["8. 🚨 КРИТИЧЕСКИЕ ДНИ",
   sep72,
   "📊 Найдено критических дней (падение ≥30%): " ++ toString ncrit ++ " из " ++
    toString ndaily ++ " (" ++ fmtFixed 1 ((ncrit : ℚ) / (ndaily : ℚ) * 100) ++ "%)",
   "📈 Медианные продажи: " ++ fmtIdr (some medianS),
   "📉 Порог критичности: " ++ fmtIdr (some threshold)]

def summaryLines (rows : List DayRow) (daily : List (Nat × ℚ))
    (critical : List Nat) (totalLosses : ℚ) : List String :=
  let holidayDays := (critical.filter fun d =>
      match (rows.filter (fun r => r.date = d)).head? with
      | some r => r.is_holiday = 1
      | none => false).length
  let rainyDays := (critical.filter fun d =>
      match (rows.filter (fun r => r.date = d)).head? with
      | some r => r.rain.getD 0 ≥ 2
      | none => false).length
  let avgLoss := if critical.length = 0 then 0
    else totalLosses / (critical.length : ℚ)
  ["💸 **ОБЩИЕ ПОТЕРИ ОТ ВСЕХ КРИТИЧЕСКИХ ДНЕЙ: " ++ fmtIdr (some totalLosses) ++ "**",
   "",
   "📊 ОБЩИЕ ВЫВОДЫ",
   sep40,
   "📊 Всего критических дней: " ++ toString critical.length ++ " из " ++
    toString daily.length ++ " (" ++
    fmtFixed 1 ((critical.length : ℚ) / (daily.length : ℚ) * 100) ++ "%)",
   "🕌 Праздничных дней: " ++ toString holidayDays ++ " (" ++
    fmtFixed 0 ((holidayDays : ℚ) / (critical.length : ℚ) * 100) ++ "%)",
   "🌧️ Дождливых дней: ~" ++ toString rainyDays ++ " (" ++
    fmtFixed 0 ((rainyDays : ℚ) / (critical.length : ℚ) * 100) ++ "%)",
   "📈 Средние потери на критический день: " ++ fmtIdr (some avgLoss),
   "",
   "🎯 ПРИОРИТЕТНАЯ РЕКОМЕНДАЦИЯ:",
   "Разработать стратегию работы в праздничные и дождливые дни",
   "",
   "📋 ИСТОЧНИКИ ДАННЫХ:",
   "- SQLite (grab_stats, gojek_stats) — операционные данные",
   "- Open-Meteo API — погодные данные",
   "- Holidays cache — праздники (мусульманские, балийские, индонезийские, международные)",
   "- ML модель (Random Forest) — SHAP анализ факторов"]

def section8Body (ext : ReportExt) (rows : List DayRow) : List String :=
  let daily := dailyTotals rows
  let medianS := medianSales daily
  let threshold := 7 / 10 * medianS
  let critical := criticalDates daily threshold
  if critical.isEmpty then
    headerLines critical.length daily.length medianS threshold ++
      ["", "✅ В периоде нет критических дней (падение ≥30%)"]
  else
    let totalLosses := (critical.map fun d =>
      max (medianS - lookupDailySales daily d) 0).sum
    headerLines critical.length daily.length medianS threshold ++
      ["💸 Общие потери от критических дней: " ++ fmtIdr (some totalLosses), ""] ++
      critical.flatMap (analyzeCriticalDay ext rows medianS) ++
      summaryLines rows daily critical totalLosses

def joinBS : List String → String
  | [] => ""
  | [s] => s
  | s :: rest => s ++ "\\n" ++ joinBS rest

def noDataMsg : String :=
  "8. 🚨 КРИТИЧЕСКИЕ ДНИ\n" ++ sep72 ++ "\nНет данных за выбранный период."

def insufficientMsg : String :=
  "8. 🚨 КРИТИЧЕСКИЕ ДНИ\n" ++ sep72 ++ "\nДанных недостаточно для анализа (минимум 7 дней)."

def section8Banner : String :=
  "8. 🚨 КРИТИЧЕСКИЕ ДНИ\\n" ++ sep72 ++ "\\nНе удалось построить раздел (ошибка обработки данных)."

def section8CriticalDaysML (ext : ReportExt) (load : Except Unit (List DayRow)) :
    String :=
  match load with
  | .error _ => section8Banner
  | .ok rows =>
    if rows.isEmpty then noDataMsg
    else if REPORT_STRICT_MODE ∧ rows.length < 7 then insufficientMsg
    else joinBS (section8Body ext rows)

/-! ## Section 8: the insufficient-data branch (claim C7) -/

def trivialMLExt : ReportExt :=
  ⟨fun _ => DayML.exc "e", fun _ => "d", fun _ => "n", "err"⟩

lemma string_data_append (a b : String) : (a ++ b).data = a.data ++ b.data := rfl

lemma section8Body_cons (ext : ReportExt) (rows : List DayRow) :
    ∃ rest, section8Body ext rows = "8. 🚨 КРИТИЧЕСКИЕ ДНИ" :: sep72 :: rest := by
  simp only [section8Body, headerLines]
  split
  · exact ⟨_, rfl⟩
  · exact ⟨_, rfl⟩

lemma bsJoinHead_ne_insufficient (s : String) :
    "8. 🚨 КРИТИЧЕСКИЕ ДНИ\\n" ++ s ≠ insufficientMsg := by
  intro h
  have h1 : "8. 🚨 КРИТИЧЕСКИЕ ДНИ\\n".data.length = 22 := by decide
  have hd : ("8. 🚨 КРИТИЧЕСКИЕ ДНИ\\n".data ++ s.data).take 22 =
      insufficientMsg.data.take 22 := by
    rw [← string_data_append, h]
  rw [← h1, List.take_left] at hd
  exact absurd hd (by decide)

/-- C7 (amended): when the filtered window is nonempty but holds fewer than 7
ROWS, `_section8_critical_days_ml` returns the fixed user-visible
insufficient-data message, before any baseline or threshold is computed, and
no exception escapes (the branch is an ordinary return). -/
theorem c7_insufficient_amended (ext : ReportExt) (rows : List DayRow)
    (h1 : rows ≠ []) (h2 : rows.length < 7) :
    section8CriticalDaysML ext (Except.ok rows) = insufficientMsg := by
  have he : rows.isEmpty = false := by
    cases rows with
    | nil => exact absurd rfl h1
    | cons a t => rfl
  simp [section8CriticalDaysML, he, h2, REPORT_STRICT_MODE]

/-- Witness for `c7_insufficient_amended` on a one-row window. -/
theorem c7_insufficient_amended_witness :
    section8CriticalDaysML trivialMLExt
      (Except.ok [⟨1, 5, 0, 0, none, 0⟩]) = insufficientMsg :=
  c7_insufficient_amended trivialMLExt [⟨1, 5, 0, 0, none, 0⟩]
    (by simp) (by simp)

def exEightRows : List DayRow :=
  [⟨1, 100, 0, 0, none, 0⟩, ⟨1, 100, 0, 0, none, 0⟩,
   ⟨2, 100, 0, 0, none, 0⟩, ⟨2, 100, 0, 0, none, 0⟩,
   ⟨3, 100, 0, 0, none, 0⟩, ⟨3, 100, 0, 0, none, 0⟩,
   ⟨4, 100, 0, 0, none, 0⟩, ⟨4, 100, 0, 0, none, 0⟩]

/-- C7 (counterexample): the guard counts ROWS (`len(sub) < 7`), not distinct
days: a window with only 4 distinct days but 8 rows (two per day) passes the
check, and the section computes the threshold and produces a full report
instead of the insufficient-data message. -/
theorem c7_distinct_days_counterexample :
    ((exEightRows.map (·.date)).dedup).length = 4 ∧
    exEightRows.length = 8 ∧
    section8CriticalDaysML trivialMLExt (Except.ok exEightRows) ≠
      insufficientMsg := by
  refine ⟨by decide, by decide, ?_⟩
  obtain ⟨rest, hb⟩ := section8Body_cons trivialMLExt exEightRows
  have hsec : section8CriticalDaysML trivialMLExt (Except.ok exEightRows) =
      joinBS (section8Body trivialMLExt exEightRows) := by
    simp [section8CriticalDaysML, exEightRows, REPORT_STRICT_MODE]
  rw [hsec, hb]
  have hjoin : joinBS ("8. 🚨 КРИТИЧЕСКИЕ ДНИ" :: sep72 :: rest) =
      "8. 🚨 КРИТИЧЕСКИЕ ДНИ" ++ "\\n" ++ joinBS (sep72 :: rest) := rfl
  rw [hjoin,
    show ("8. 🚨 КРИТИЧЕСКИЕ ДНИ" ++ "\\n" : String) =
      "8. 🚨 КРИТИЧЕСКИЕ ДНИ\\n" from by decide]
  exact bsJoinHead_ne_insufficient _

/-! ## Explainer fallback (claim C8)

`predict_with_shap` (src/ml/inference.py, lines 142-153) wraps the
interventional explainer in `try`/`except` and retries once with SHAP's
permissive default mode — modelled by the `fallbackSv` values that second
explainer would produce.  `predict_and_explain` (lines 56-72) builds the
interventional explainer with no handler: a failure there propagates to the
caller.  In section 8's per-day analysis the failure is caught by the
handler at line 898 and rendered as the ML-unavailable block for that day
only. -/

def predictWithShapImp (interventional : Except String (List (List ℚ)))
    (fallbackSv : List (List ℚ)) (entries : List TransEntry) :
    List (String × ℚ) :=
  featureImp (resolvePreprocessedFeatureGroups entries).2
    (match interventional with
     | Except.ok sv => sv
     | Except.error _ => fallbackSv)

def predictAndExplainImp (interventional : Except String (List (List ℚ)))
    (entries : List TransEntry) : Except String (List (String × ℚ)) :=
  match interventional with
  | Except.error e => Except.error e
  | Except.ok sv =>
    Except.ok (featureImp (resolvePreprocessedFeatureGroups entries).2 sv)

/-- C8 (counterexample): not every attribution computation retries:
`predict_and_explain` propagates the interventional failure unchanged — it
gives up without retrying in a more permissive mode — while the same failing
input fed to `predict_with_shap` is recovered through its fallback explainer. -/
theorem c8_no_retry_counterexample :
    predictAndExplainImp (Except.error "interventional failed") exOverlap =
      Except.error "interventional failed" ∧
    predictWithShapImp (Except.error "interventional failed") [[5, 7]]
      exOverlap = [("a", 6), ("a_b", 7)] := by
  refine ⟨rfl, ?_⟩
  have h : (resolvePreprocessedFeatureGroups exOverlap).2 =
      [("a", [0, 1]), ("a_b", [1])] := by decide
  simp only [predictWithShapImp, h]
  simp [featureImp, meanAbs]
  norm_num

/-- C8 (amended): `predict_with_shap` retries once with the permissive
default explainer when the interventional mode throws (it returns the
attributions computed from the fallback SHAP values); `predict_and_explain`
does not — the failure propagates; and in section 8 a per-day explainer
failure is caught and rendered as the day's ML-unavailable block inside the
report rather than failing the whole report. -/
theorem c8_fallback_amended (e : String) (fallbackSv : List (List ℚ))
    (entries : List TransEntry) (ext : ReportExt) (medianS : ℚ) (r : DayRow)
    (msg : String) (hml : ext.dayML r.date = DayML.exc msg) :
    predictWithShapImp (Except.error e) fallbackSv entries =
      featureImp (resolvePreprocessedFeatureGroups entries).2 fallbackSv ∧
    predictAndExplainImp (Except.error e) entries = Except.error e ∧
    "### ⚠️ **ML АНАЛИЗ НЕДОСТУПЕН**" ∈
      analyzeCriticalDay ext [r] medianS r.date := by
  refine ⟨rfl, rfl, ?_⟩
  simp only [analyzeCriticalDay, List.filter_cons, decide_eq_true_eq,
    if_pos rfl, List.head?_cons]
  simp [dayMLLines, hml, mlErrorLines, REPORT_STRICT_MODE, List.mem_append]

/-- Witness for `c8_fallback_amended` at a concrete failing day. -/
theorem c8_fallback_amended_witness :
    predictWithShapImp (Except.error "x") [[5, 7]] exOverlap =
      featureImp (resolvePreprocessedFeatureGroups exOverlap).2 [[5, 7]] ∧
    predictAndExplainImp (Except.error "x") exOverlap = Except.error "x" ∧
    "### ⚠️ **ML АНАЛИЗ НЕДОСТУПЕН**" ∈
      analyzeCriticalDay trivialMLExt [⟨1, 5, 0, 0, none, 0⟩] 10 1 :=
  c8_fallback_amended "x" [[5, 7]] exOverlap trivialMLExt 10
    ⟨1, 5, 0, 0, none, 0⟩ "e" rfl

/-! ## Counterfactual what-if simulator (claim C9)

Embedding of the lever simulation of `_section8_critical_days_ml`
(src/app/report_text.py, lines 1454-1489).  A feature row is a finite map
from column name to an optional value (`none` models both a missing column
and a NaN — in either case the Python code skips the perturbation); every
perturbed scenario is built from the unperturbed row by `copy(deep=True)`
followed by `.loc` updates, which the functional update `updPresent`
mirrors.  The trained pipeline's prediction is an opaque function of the
feature row; the day's realized sales are passed alongside the feature row
and — as in the source — never read by the simulator. -/

def RowF : Type := String → Option ℚ

def updPresent (x : RowF) (c : String) (f : ℚ → ℚ) : RowF :=
  fun c₀ => if c₀ = c then (x c).map f else x c₀

def perturbSla (x : RowF) : RowF :=
  updPresent (updPresent (updPresent x
    "preparation_time_mean" (fun v => max 0 (v * (9 / 10))))
    "accepting_time_mean" (fun v => max 0 (v * (9 / 10))))
    "delivery_time_mean" (fun v => max 0 (v * (9 / 10)))

def perturbCombined (x : RowF) : RowF :=
  updPresent (updPresent (perturbSla x)
    "outage_offline_rate_grab" (fun _ => 0))
    "ads_spend_total" (fun v => v * (11 / 10))

def perturbBudget (x : RowF) : RowF :=
  if (x "ads_spend_total").isSome then
    updPresent x "ads_spend_total" (fun v => v * (11 / 10))
  else
    updPresent (updPresent x
      "mkt_ads_spend_grab" (fun v => v * (11 / 10)))
      "mkt_ads_spend_gojek" (fun v => v * (11 / 10))

def perturbOffline (x : RowF) : RowF :=
  updPresent (updPresent x
    "outage_offline_rate_grab" (fun _ => 0))
    "offline_rate_grab" (fun _ => 0)

def whatIfDeltas (predict : RowF → ℚ) (x : RowF) (realizedSales : ℚ) :
    ℚ × ℚ × ℚ × ℚ :=
  let uplift := predict (perturbCombined x) - predict x
  let basePred := predict x
  (uplift,
   predict (perturbSla x) - basePred,
   predict (perturbBudget x) - basePred,
   predict (perturbOffline x) - basePred)

/-- C9: the counterfactual simulator's deltas are a function of the feature
row alone — two observations with identical feature values but different
realized sales yield identical deltas for every lever; each lever perturbs
only its own columns (all other columns of the isolated copy keep the
original row's values, and the unperturbed row itself is used for the
baseline prediction); and the perturbation magnitudes are the fixed constants
−10% (timing, clamped at 0), +10% (ad budget) and 0 (offline time),
independent of the row and of the target. -/
theorem c9_counterfactual_no_leakage (predict : RowF → ℚ) (x : RowF)
    (s₁ s₂ : ℚ) :
    whatIfDeltas predict x s₁ = whatIfDeltas predict x s₂ ∧
    (∀ c, c ∉ ["preparation_time_mean", "accepting_time_mean",
        "delivery_time_mean"] → perturbSla x c = x c) ∧
    (∀ c ∈ ["preparation_time_mean", "accepting_time_mean",
        "delivery_time_mean"],
      perturbSla x c = (x c).map fun v => max 0 (v * (9 / 10))) ∧
    (∀ c, c ∉ ["outage_offline_rate_grab", "offline_rate_grab"] →
      perturbOffline x c = x c) ∧
    (∀ c ∈ ["outage_offline_rate_grab", "offline_rate_grab"],
      perturbOffline x c = (x c).map fun _ => 0) ∧
    ((x "ads_spend_total").isSome →
      perturbBudget x "ads_spend_total" =
        (x "ads_spend_total").map fun v => v * (11 / 10)) := by
  refine ⟨rfl, ?_, ?_, ?_, ?_, ?_⟩
  · intro c hc
    simp only [List.mem_cons, List.mem_singleton, not_or] at hc
    obtain ⟨h1, h2, h3⟩ := hc
    simp [perturbSla, updPresent, h1, h2, h3]
  · intro c hc
    rcases List.mem_cons.mp hc with rfl | hc
    · simp [perturbSla, updPresent]
    rcases List.mem_cons.mp hc with rfl | hc
    · simp [perturbSla, updPresent]
    rcases List.mem_cons.mp hc with rfl | hc
    · simp [perturbSla, updPresent]
    · simp at hc
  · intro c hc
    simp only [List.mem_cons, List.mem_singleton, not_or] at hc
    obtain ⟨h1, h2⟩ := hc
    simp [perturbOffline, updPresent, h1, h2]
  · intro c hc
    rcases List.mem_cons.mp hc with rfl | hc
    · simp [perturbOffline, updPresent]
    rcases List.mem_cons.mp hc with rfl | hc
    · simp [perturbOffline, updPresent]
    · simp at hc
  · intro hsome
    simp [perturbBudget, hsome, updPresent]

def exRowF : RowF :=
  fun c => if c = "preparation_time_mean" then some 20
    else if c = "ads_spend_total" then some 100 else none

/-- Witness for `c9_counterfactual_no_leakage` at a concrete row and
predictor, discharging the membership and presence hypotheses. -/
theorem c9_counterfactual_no_leakage_witness :
    perturbSla exRowF "rain" = exRowF "rain" ∧
    perturbSla exRowF "preparation_time_mean" =
      (exRowF "preparation_time_mean").map (fun v => max 0 (v * (9 / 10))) ∧
    perturbOffline exRowF "rain" = exRowF "rain" ∧
    perturbOffline exRowF "offline_rate_grab" =
      (exRowF "offline_rate_grab").map (fun _ => 0) ∧
    perturbBudget exRowF "ads_spend_total" =
      (exRowF "ads_spend_total").map (fun v => v * (11 / 10)) ∧
    whatIfDeltas (fun _ => 0) exRowF 13000000 =
      whatIfDeltas (fun _ => 0) exRowF 6000000 := by
  have h := c9_counterfactual_no_leakage (fun _ => 0) exRowF 13000000 6000000
  refine ⟨h.2.1 "rain" (by decide), h.2.2.1 "preparation_time_mean" (by decide),
    h.2.2.2.1 "rain" (by decide), h.2.2.2.2.1 "offline_rate_grab" (by decide),
    h.2.2.2.2.2 (by decide), h.1⟩

/-! ## The dead block after the first handler (claim C10)

In the source, `_section8_critical_days_ml` returns at line 946 and its
`except` handler returns the fixed banner at line 949; the statements from
line 950 to line 1521 sit after that `return` inside the handler (and a
second `except` clause at line 1522 follows an always-matching first one), so
they are unreachable.  The embedding therefore contains only the live code;
the theorem below shows every returned string is either the banner or the
join of the live lines, and that the constant lines appended only by the dead
block (its marketing table, cause list, summary, factor tables,
recommendations and period reference) occur in no returned report. -/

def deadMarkers : List String :=
  ["Маркетинг:",
   "Внешние факторы:",
   "Причины:",
   "Краткое резюме:",
   "Негативные факторы (ТОП‑5):",
   "Что помогло (до 2 факторов):",
   "Рекомендации:",
   "Справка по периоду:"]

lemma notMarker_of_headChar (l : String) (c : Char)
    (h : l.data.head? = some c)
    (hc : c ∉ (['М', 'В', 'П', 'К', 'Н', 'Ч', 'Р', 'С'] : List Char)) :
    l ∉ deadMarkers := by
  intro hm
  simp only [deadMarkers, List.mem_cons, List.not_mem_nil, or_false] at hm
  rcases hm with rfl | rfl | rfl | rfl | rfl | rfl | rfl | rfl <;>
    (cases Option.some.inj h; exact hc (by decide))

lemma markerFree_mlErrorLines (msg : String) :
    ∀ l ∈ mlErrorLines msg, l ∉ deadMarkers := by
  intro l hl
  simp only [mlErrorLines, REPORT_STRICT_MODE, if_true, List.mem_cons,
    List.not_mem_nil, or_false] at hl
  rcases hl with rfl | rfl | rfl | rfl
  · decide
  · exact notMarker_of_headChar _ 'О' rfl (by decide)
  · decide
  · decide

lemma markerFree_realCausesLines (negF : List (String × ℚ × ℚ)) :
    ∀ l ∈ realCausesLines negF, l ∉ deadMarkers := by
  intro l hl
  simp only [realCausesLines, List.mem_cons, List.mem_flatMap] at hl
  rcases hl with rfl | ⟨ix, _, hl⟩
  · decide
  · simp only [List.mem_cons, List.not_mem_nil, or_false] at hl
    rcases hl with rfl | rfl | rfl
    · exact notMarker_of_headChar _ '*' rfl (by decide)
    · exact notMarker_of_headChar _ '-' rfl (by decide)
    · decide

def markerFreeL (A : List String) : Prop := ∀ l ∈ A, l ∉ deadMarkers

lemma markerFreeL_nil : markerFreeL [] := by
  intro l hl
  simp at hl

lemma markerFreeL_cons {a : String} {A : List String} (h : a ∉ deadMarkers)
    (hA : markerFreeL A) : markerFreeL (a :: A) := by
  intro l hl
  rcases List.mem_cons.mp hl with rfl | hl
  · exact h
  · exact hA l hl

lemma markerFreeL_append {A B : List String} (hA : markerFreeL A)
    (hB : markerFreeL B) : markerFreeL (A ++ B) :=
  fun l hl => (List.mem_append.mp hl).elim (hA l) (hB l)

lemma markerFreeL_single {a : String} (h : a ∉ deadMarkers) :
    markerFreeL [a] :=
  markerFreeL_cons h markerFreeL_nil

lemma markerFreeL_flatMap {α : Type} {f : α → List String} {xs : List α}
    (h : ∀ x ∈ xs, markerFreeL (f x)) : markerFreeL (xs.flatMap f) := by
  intro l hl
  rcases List.mem_flatMap.mp hl with ⟨x, hx, hlx⟩
  exact h x hx l hlx

lemma markerFreeL_ite {c : Prop} [Decidable c] {A B : List String}
    (hA : markerFreeL A) (hB : markerFreeL B) :
    markerFreeL (if c then A else B) := by
  split
  · exact hA
  · exact hB

lemma rainLine_notMarker (ext : ReportExt) (r : DayRow)
    (negF : List (String × ℚ × ℚ)) : rainLine ext r negF ∉ deadMarkers := by
  simp only [rainLine]
  split
  · exact notMarker_of_headChar _ '*' rfl (by decide)
  · split
    · exact notMarker_of_headChar _ '*' rfl (by decide)
    · exact notMarker_of_headChar _ '*' rfl (by decide)

lemma markerFree_positiveLines (posF : List (String × ℚ)) :
    markerFreeL (positiveLines posF) := by
  simp only [positiveLines]
  split
  · exact markerFreeL_nil
  · refine markerFreeL_cons (by decide)
      (markerFreeL_append (markerFreeL_flatMap ?_) (markerFreeL_single (by decide)))
    intro x _
    exact markerFreeL_cons (notMarker_of_headChar _ '*' rfl (by decide))
      (markerFreeL_single (notMarker_of_headChar _ '-' rfl (by decide)))

lemma markerFree_recommendationFor (i : Nat) (x : String × ℚ × ℚ) :
    markerFreeL (recommendationFor i x).1 := by
  simp only [recommendationFor]
  split
  · exact markerFreeL_cons (notMarker_of_headChar _ '*' rfl (by decide))
      (markerFreeL_single (notMarker_of_headChar _ '-' rfl (by decide)))
  · split
    · exact markerFreeL_cons (notMarker_of_headChar _ '*' rfl (by decide))
        (markerFreeL_single (notMarker_of_headChar _ '-' rfl (by decide)))
    · split
      · exact markerFreeL_cons (notMarker_of_headChar _ '*' rfl (by decide))
          (markerFreeL_single (notMarker_of_headChar _ '-' rfl (by decide)))
      · exact markerFreeL_cons (notMarker_of_headChar _ '*' rfl (by decide))
          (markerFreeL_single (notMarker_of_headChar _ '-' rfl (by decide)))

lemma markerFree_recommendationBlock (negF : List (String × ℚ × ℚ))
    (lossAmount : ℚ) : markerFreeL (recommendationBlock negF lossAmount) := by
  simp only [recommendationBlock]
  refine markerFreeL_cons (by decide)
    (markerFreeL_append (markerFreeL_flatMap ?_) ?_)
  · intro p hp
    rcases List.mem_map.mp hp with ⟨ix, _, rfl⟩
    exact markerFree_recommendationFor ix.1 ix.2
  · exact markerFreeL_cons (by decide) (markerFreeL_cons (by decide)
      (markerFreeL_cons (notMarker_of_headChar _ '-' rfl (by decide))
        (markerFreeL_single (by decide))))

lemma markerFree_dayMLLines (ext : ReportExt) (r : DayRow) (lossAmount : ℚ) :
    markerFreeL (dayMLLines ext r lossAmount) := by
  simp only [dayMLLines]
  cases hE : ext.dayML r.date with
  | exc msg => exact markerFree_mlErrorLines msg
  | modelMissing =>
    exact markerFreeL_cons (by decide) (markerFreeL_single (by decide))
  | featuresMissing =>
    exact markerFreeL_cons (by decide) (markerFreeL_single (by decide))
  | ok features sv =>
    dsimp only
    split
    · exact markerFreeL_cons (by decide) (markerFreeL_single (by decide))
    · refine markerFreeL_append (markerFreeL_append
        (markerFree_realCausesLines _) (markerFreeL_single (by decide))) ?_
      refine markerFreeL_ite (markerFree_mlErrorLines _) ?_
      refine markerFreeL_append (markerFreeL_append (markerFreeL_append
        (markerFreeL_cons (by decide)
          (markerFreeL_single (rainLine_notMarker ext r _)))
        (markerFreeL_single (by decide)))
        (markerFree_positiveLines _))
        (markerFree_recommendationBlock _ _)

lemma markerFree_analyzeCriticalDay (ext : ReportExt) (rows : List DayRow)
    (medianS : ℚ) (d : Nat) :
    markerFreeL (analyzeCriticalDay ext rows medianS d) := by
  simp only [analyzeCriticalDay]
  cases hF : (List.filter (fun r => r.date = d) rows).head? with
  | none =>
    exact markerFreeL_single (notMarker_of_headChar _ '🔴' rfl (by decide))
  | some r₀ =>
    dsimp only
    refine markerFreeL_append (markerFreeL_append (markerFreeL_append ?_ ?_)
      (markerFreeL_single (by decide))) (markerFree_dayMLLines ext r₀ _)
    · refine markerFreeL_cons (notMarker_of_headChar _ '🔴' rfl (by decide))
        (markerFreeL_cons (by decide) (markerFreeL_cons (by decide)
          (markerFreeL_cons (notMarker_of_headChar _ '-' rfl (by decide))
            (markerFreeL_single (notMarker_of_headChar _ '-' rfl (by decide))))))
    · exact markerFreeL_ite
        (markerFreeL_cons (notMarker_of_headChar _ '-' rfl (by decide))
          (markerFreeL_single (notMarker_of_headChar _ '-' rfl (by decide))))
        markerFreeL_nil

lemma markerFree_headerLines (ncrit ndaily : Nat) (medianS threshold : ℚ) :
    markerFreeL (headerLines ncrit ndaily medianS threshold) := by
  simp only [headerLines]
  exact markerFreeL_cons (by decide) (markerFreeL_cons (by decide)
    (markerFreeL_cons (notMarker_of_headChar _ '📊' rfl (by decide))
      (markerFreeL_cons (notMarker_of_headChar _ '📈' rfl (by decide))
        (markerFreeL_single (notMarker_of_headChar _ '📉' rfl (by decide))))))

lemma markerFree_summaryLines (rows : List DayRow) (daily : List (Nat × ℚ))
    (critical : List Nat) (totalLosses : ℚ) :
    markerFreeL (summaryLines rows daily critical totalLosses) := by
  simp only [summaryLines]
  refine markerFreeL_cons (notMarker_of_headChar _ '💸' rfl (by decide)) ?_
  refine markerFreeL_cons (by decide) (markerFreeL_cons (by decide)
    (markerFreeL_cons (by decide) ?_))
  refine markerFreeL_cons (notMarker_of_headChar _ '📊' rfl (by decide))
    (markerFreeL_cons (notMarker_of_headChar _ '🕌' rfl (by decide))
      (markerFreeL_cons (notMarker_of_headChar _ '🌧' rfl (by decide))
        (markerFreeL_cons (notMarker_of_headChar _ '📈' rfl (by decide)) ?_)))
  exact markerFreeL_cons (by decide) (markerFreeL_cons (by decide)
    (markerFreeL_cons (by decide) (markerFreeL_cons (by decide)
      (markerFreeL_cons (by decide) (markerFreeL_cons (by decide)
        (markerFreeL_cons (by decide) (markerFreeL_cons (by decide)
          (markerFreeL_single (by decide)))))))))

lemma markerFree_section8Body (ext : ReportExt) (rows : List DayRow) :
    markerFreeL (section8Body ext rows) := by
  simp only [section8Body]
  split
  · exact markerFreeL_append (markerFree_headerLines _ _ _ _)
      (markerFreeL_cons (by decide) (markerFreeL_single (by decide)))
  · refine markerFreeL_append (markerFreeL_append (markerFreeL_append
      (markerFree_headerLines _ _ _ _)
      (markerFreeL_cons (notMarker_of_headChar _ '💸' rfl (by decide))
        (markerFreeL_single (by decide))))
      (markerFreeL_flatMap ?_)) (markerFree_summaryLines _ _ _ _)
    intro d _
    exact markerFree_analyzeCriticalDay ext rows _ d

/-- C10: for every input, `_section8_critical_days_ml` returns either the
handler's fixed error banner or the join (with the source's literal `"\\n"`
separator) of lines built by the code before the first exception handler;
none of those lines is one of the constant lines appended only by the
unreachable block after the handler's `return` (its marketing table, causes,
résumé, factor tables, recommendations and period-reference sections), so
that block's output never appears in any returned report. -/
theorem c10_dead_code_unreachable (ext : ReportExt)
    (load : Except Unit (List DayRow)) :
    section8CriticalDaysML ext load = section8Banner ∨
    ∃ ls, section8CriticalDaysML ext load = joinBS ls ∧
      ∀ l ∈ ls, l ∉ deadMarkers := by
  match load with
  | Except.error _ => exact Or.inl rfl
  | Except.ok rows =>
    refine Or.inr ?_
    by_cases he : rows.isEmpty
    · refine ⟨[noDataMsg], by simp [section8CriticalDaysML, he, joinBS], ?_⟩
      intro l hl
      simp only [List.mem_singleton] at hl
      subst hl
      decide
    · by_cases h7 : rows.length < 7
      · refine ⟨[insufficientMsg],
          by simp [section8CriticalDaysML, he, h7, REPORT_STRICT_MODE, joinBS], ?_⟩
        intro l hl
        simp only [List.mem_singleton] at hl
        subst hl
        decide
      · exact ⟨section8Body ext rows,
          by simp [section8CriticalDaysML, he, h7, REPORT_STRICT_MODE],
          markerFree_section8Body ext rows⟩
